import Mathlib

/-!
Verification of the ORI-A XML serializer (`ORI_A/ORI_A.py`).

The development shallowly embeds the serializer:
* `RecordCls` enumerates the dataclasses; `declaredFields` lists each class's
  dataclass fields in declaration order (mirroring `dataclasses.fields(cls)`).
* `ORI_A_ordered_fields` embeds `Serializable._ORI_A_ordered_fields` together
  with the two overrides on `BegripGegevens` and
  `DagelijksBestuurLidmaatschapGegevens`.
* `PyVal` is a deep embedding of the Python runtime values the serializer
  manipulates; `pyStr` models Python's `str()` on them.
* `toXmlFuel` is a fuel-indexed rendering of `Serializable.to_xml`;
  `Serializable.to_xml` instantiates the fuel with a sufficient bound and the
  lemma `Serializable.to_xml_unfold` recovers the fuel-free recursive equation.
* `ORI_A.to_xml` embeds the document-root assembly (namespace map plus
  `xsi:schemaLocation`, then `extend` with the unattributed children).
-/

namespace ORIA

/-- The dataclasses defined in `ORI_A.py` (every `Serializable` subclass). -/
inductive RecordCls where
  | GremiumGegevens
  | NaamGegevens
  | NevenfunctieGegevens
  | StemmingOverPersonenGegevens
  | VerwijzingGegevens
  | BegripGegevens
  | BesluitGegevens
  | DagelijksBestuurLidmaatschapGegevens
  | FractielidmaatschapGegevens
  | StemGegevens
  | StemresultaatPerFractieGegevens
  | DagelijksBestuurGegevens
  | FractieGegevens
  | InformatieobjectGegevens
  | NatuurlijkPersoonGegevens
  | StemmingGegevens
  | TijdsaanduidingGegevens
  | VergaderingGegevens
  | AgendapuntGegevens
  | SpreekfragmentGegevens
  | AanwezigeDeelnemerGegevens
  | ORI_A
  deriving DecidableEq

/-- The Python class name of each dataclass. -/
def className : RecordCls → String
  | .GremiumGegevens => "GremiumGegevens"
  | .NaamGegevens => "NaamGegevens"
  | .NevenfunctieGegevens => "NevenfunctieGegevens"
  | .StemmingOverPersonenGegevens => "StemmingOverPersonenGegevens"
  | .VerwijzingGegevens => "VerwijzingGegevens"
  | .BegripGegevens => "BegripGegevens"
  | .BesluitGegevens => "BesluitGegevens"
  | .DagelijksBestuurLidmaatschapGegevens => "DagelijksBestuurLidmaatschapGegevens"
  | .FractielidmaatschapGegevens => "FractielidmaatschapGegevens"
  | .StemGegevens => "StemGegevens"
  | .StemresultaatPerFractieGegevens => "StemresultaatPerFractieGegevens"
  | .DagelijksBestuurGegevens => "DagelijksBestuurGegevens"
  | .FractieGegevens => "FractieGegevens"
  | .InformatieobjectGegevens => "InformatieobjectGegevens"
  | .NatuurlijkPersoonGegevens => "NatuurlijkPersoonGegevens"
  | .StemmingGegevens => "StemmingGegevens"
  | .TijdsaanduidingGegevens => "TijdsaanduidingGegevens"
  | .VergaderingGegevens => "VergaderingGegevens"
  | .AgendapuntGegevens => "AgendapuntGegevens"
  | .SpreekfragmentGegevens => "SpreekfragmentGegevens"
  | .AanwezigeDeelnemerGegevens => "AanwezigeDeelnemerGegevens"
  | .ORI_A => "ORI_A"

/-- Dataclass field names of each class, in the declaration order of
`ORI_A.py` (the order `dataclasses.fields(cls)` reports). -/
def declaredFields : RecordCls → List String
  | .GremiumGegevens => ["naam", "identificatie"]
  | .NaamGegevens =>
      ["achternaam", "tussenvoegsel", "voorletters", "voornamen", "volledigeNaam"]
  | .NevenfunctieGegevens =>
      ["omschrijving", "naamOrganisatie", "aantalUrenPerMaand", "indicatieBezoldigd",
       "indicatieFunctieVanwegeLidmaatschap", "datumMelding", "datumAanvang", "datumEinde"]
  | .StemmingOverPersonenGegevens => ["naamKandidaat", "aantalUitgebrachteStemmen"]
  | .VerwijzingGegevens => ["verwijzingID", "verwijzingNaam"]
  | .BegripGegevens => ["begripLabel", "verwijzingBegrippenlijst", "begripCode"]
  | .BesluitGegevens => ["ID", "resultaat", "toelichting", "toezegging"]
  | .DagelijksBestuurLidmaatschapGegevens =>
      ["verwijzingDagelijksBestuur", "ID", "datumBeginDagelijksBestuurLidmaatschap",
       "datumEindeDagelijksBestuurLidmaatschap"]
  | .FractielidmaatschapGegevens =>
      ["verwijzingFractie", "ID", "datumBeginFractielidmaatschap",
       "datumEindeFractielidmaatschap", "indicatieVoorzitter"]
  | .StemGegevens => ["keuzeStemming", "gegevenOpStemming", "ID"]
  | .StemresultaatPerFractieGegevens => ["fractieStemresultaat", "verwijzingStemming", "ID"]
  | .DagelijksBestuurGegevens => ["ID", "naam", "overheidsorgaan", "type"]
  | .FractieGegevens => ["ID", "naam", "overheidsorgaan", "neemtDeelAanStemming"]
  | .InformatieobjectGegevens => ["verwijzingInformatieobject", "informatieobjectType"]
  | .NatuurlijkPersoonGegevens =>
      ["ID", "naam", "geslachtsaanduiding", "functie", "nevenfunctie",
       "isLidVanFractie", "isLidVanDagelijksBestuur"]
  | .StemmingGegevens =>
      ["ID", "heeftBetrekkingOpAgendapunt", "type", "resultaatMondelingeStemming",
       "resultaatStemmingOverPersonen", "stemmingOverPersonen", "leidtTotBesluit",
       "heeftBetrekkingOpBesluitvormingsstuk"]
  | .TijdsaanduidingGegevens => ["aanvang", "einde", "isRelatiefTot"]
  | .VergaderingGegevens =>
      ["naam", "datum", "ID", "geplandeDatum", "geplandeAanvang", "geplandEinde",
       "aanvang", "einde", "publicatiedatum", "type", "toelichting",
       "georganiseerdDoorGremium", "locatie", "weblocatie", "status", "overheidsorgaan",
       "isVastgelegdMiddels", "isGenotuleerdIn", "heeftAlsBijlage",
       "heeftAlsDeelvergadering"]
  | .AgendapuntGegevens =>
      ["ID", "naam", "geplandVolgnummer", "volgnummer", "volgnummerWeergave",
       "omschrijving", "geplandeStarttijd", "geplandeEindtijd", "starttijd", "eindtijd",
       "tijdsaanduidingMediabron", "locatie", "indicatieHamerstuk", "indicatieBehandeld",
       "indicatieBesloten", "overheidsorgaan", "wordtBehandeldTijdens",
       "heeftBehandelendAmbtenaar", "heeftAlsBijlage", "heeftAlsSubagendapunt"]
  | .SpreekfragmentGegevens =>
      ["gedurendeAgendapunt", "ID", "naam", "aanvang", "einde", "taal", "tekst",
       "positieNotulen", "tijdsaanduidingMediabron"]
  | .AanwezigeDeelnemerGegevens =>
      ["isNatuurlijkPersoon", "ID", "rolnaam", "organisatie", "deelnemerspositie",
       "aanvangAanwezigheid", "eindeAanwezigheid", "neemtDeelAanVergadering",
       "neemtDeelAanStemming", "spreektTijdensSpreekfragment"]
  | .ORI_A =>
      ["vergadering", "agendapunt", "stemming", "besluit", "fractie",
       "dagelijksBestuur", "persoonBuitenVergadering", "aanwezigeDeelnemer"]

/-- Embedding of `Serializable._ORI_A_ordered_fields` (by field name).

The base implementation returns `dataclasses.fields(cls)` unchanged.
`BegripGegevens` overrides it with `(fields[0], fields[2], fields[1])`, and
`DagelijksBestuurLidmaatschapGegevens` overrides it with
`fields[1:] + fields[:1]`. -/
def ORI_A_ordered_fields (cls : RecordCls) : List String :=
  let fields := declaredFields cls
  match cls with
  | .BegripGegevens => [fields.getD 0 "", fields.getD 2 "", fields.getD 1 ""]
  | .DagelijksBestuurLidmaatschapGegevens => fields.drop 1 ++ fields.take 1
  | _ => fields

/-- Deep embedding of the Python runtime values handled by
`Serializable.to_xml`: `None`, scalars (str, int, bool), enum members
(carrying their enum class name, symbolic member name and associated string
value), the xsdata time types (abstracted by their ISO text, which is what
`str()` renders them as), the three container kinds the serializer
recognizes, and `Serializable` dataclass instances (class tag plus the
attribute map `field name ↦ value`). -/
inductive PyVal where
  | vnone
  | vstr (s : String)
  | vint (n : Int)
  | vbool (b : Bool)
  | venum (cls member value : String)
  | vdate (iso : String)
  | vdatetime (iso : String)
  | vtime (iso : String)
  | vlist (xs : List PyVal)
  | vtuple (xs : List PyVal)
  | vset (xs : List PyVal)
  | vobj (cls : RecordCls) (fields : List (String × PyVal))

mutual

/-- Structural size of an embedded Python value (used as a fuel bound for
the recursive definitions below). -/
def pySize : PyVal → Nat
  | .vlist xs => 1 + pySizeList xs
  | .vtuple xs => 1 + pySizeList xs
  | .vset xs => 1 + pySizeList xs
  | .vobj _ flds => 1 + pySizeFields flds
  | _ => 1

/-- Structural size of a list of embedded Python values. -/
def pySizeList : List PyVal → Nat
  | [] => 1
  | v :: vs => 1 + pySize v + pySizeList vs

/-- Structural size of a dataclass attribute map. -/
def pySizeFields : List (String × PyVal) → Nat
  | [] => 1
  | (_, v) :: fs => 1 + pySize v + pySizeFields fs

end

/-- An attribute slot on an lxml element: either a namespace declaration
from the `nsmap` passed at creation (serialized first, in map order), or a
plain attribute added with `.set` (serialized after the declarations). -/
inductive Attr where
  | nsdecl (pfx : Option String) (uri : String)
  | plain (name : String) (value : String)

/-- An lxml element: tag, attribute slots in serialization order, optional
text content, and child elements in document order. -/
inductive Elem where
  | mk (tag : String) (attrs : List Attr) (text : Option String)
       (children : List Elem)

def Elem.tag : Elem → String
  | .mk t _ _ _ => t

def Elem.attrs : Elem → List Attr
  | .mk _ a _ _ => a

def Elem.text : Elem → Option String
  | .mk _ _ t _ => t

def Elem.children : Elem → List Elem
  | .mk _ _ _ c => c

/-- The Python test `field_value is None`. -/
def PyVal.isNone : PyVal → Bool
  | .vnone => true
  | _ => false

/-- Python `getattr(self, name)` on a dataclass instance whose attributes
are modelled as an association list. -/
def getattr : List (String × PyVal) → String → Option PyVal
  | [], _ => none
  | (n, v) :: rest, name => if n = name then some v else getattr rest name

/-- The "listify" step of `Serializable.to_xml`: a value that is not a
`list`, `tuple` or `set` is wrapped into the one-element tuple `(value,)`;
the three container kinds are used as-is. -/
def listify : PyVal → List PyVal
  | .vlist xs => xs
  | .vtuple xs => xs
  | .vset xs => xs
  | v => [v]

/-- Concatenation of a list of lists (the successive appends performed by
the serializer's nested loops). -/
def catLists {α : Type} : List (List α) → List α
  | [] => []
  | l :: ls => l ++ catLists ls

/-- Python `str()` / `repr()` on embedded values, fuel-indexed so that the
recursion through containers is structural.  The `isRepr` flag selects
`repr()` semantics (used by Python when rendering container elements):
strings gain quotes and enum members render as `<Cls.member: value>`.
String-escape details inside `repr` of strings are not modelled (no claim
depends on them); `\x27` is an apostrophe. -/
def pyToStrFuel : Nat → Bool → PyVal → String
  | 0, _, _ => ""
  | fuel + 1, isRepr, v =>
    match v with
    | .vnone => "None"
    | .vstr s => if isRepr then "\x27" ++ s ++ "\x27" else s
    | .vint n => toString n
    | .vbool b => if b then "True" else "False"
    | .venum cls member value =>
        if isRepr then "<" ++ cls ++ "." ++ member ++ ": \x27" ++ value ++ "\x27>"
        else cls ++ "." ++ member
    | .vdate iso => iso
    | .vdatetime iso => iso
    | .vtime iso => iso
    | .vlist xs =>
        "[" ++ String.intercalate ", " (xs.map (pyToStrFuel fuel true)) ++ "]"
    | .vtuple xs =>
        match xs with
        | [x] => "(" ++ pyToStrFuel fuel true x ++ ",)"
        | _ => "(" ++ String.intercalate ", " (xs.map (pyToStrFuel fuel true)) ++ ")"
    | .vset xs =>
        match xs with
        | [] => "set()"
        | _ => "\x7b" ++ String.intercalate ", " (xs.map (pyToStrFuel fuel true)) ++ "\x7d"
    | .vobj cls flds =>
        className cls ++ "(" ++
          String.intercalate ", "
            (flds.map (fun p => p.1 ++ "=" ++ pyToStrFuel fuel true p.2)) ++ ")"

/-- Python `str(val)` as invoked by `Serializable.to_xml` on non-record
values. -/
def pyStr (v : PyVal) : String :=
  pyToStrFuel (pySize v + 1) false v

/-- Fuel-indexed embedding of `Serializable.to_xml`: build an element named
`root`, then for each field in `_ORI_A_ordered_fields` order, read the
attribute, skip `None`, listify, and serialize each item (recursively for
`Serializable` instances, by `str()` into a text child otherwise). -/
def toXmlFuel : Nat → RecordCls → List (String × PyVal) → String → Elem
  | 0, _, _, root => Elem.mk root [] none []
  | fuel + 1, cls, flds, root =>
    Elem.mk root [] none
      (catLists ((ORI_A_ordered_fields cls).map (fun name =>
        match getattr flds name with
        | none => []
        | some fv =>
          if fv.isNone then []
          else (listify fv).map (fun item =>
            match item with
            | PyVal.vobj cls2 flds2 => toXmlFuel fuel cls2 flds2 name
            | _ => Elem.mk name [] (some (pyStr item)) []))))

/-- The children contributed by one field at a given fuel (the inner loop
body of `toXmlFuel`). -/
def fieldElemsFuel (fuel : Nat) (flds : List (String × PyVal)) (name : String) :
    List Elem :=
  match getattr flds name with
  | none => []
  | some fv =>
    if fv.isNone then []
    else (listify fv).map (fun item =>
      match item with
      | PyVal.vobj cls2 flds2 => toXmlFuel fuel cls2 flds2 name
      | _ => Elem.mk name [] (some (pyStr item)) [])

/-- Embedding of `Serializable.to_xml`; the fuel `pySizeFields flds + 1` is large
enough that the cut-off is never reached (see `Serializable.to_xml_unfold`). -/
def Serializable.to_xml (cls : RecordCls) (flds : List (String × PyVal))
    (root : String) : Elem :=
  toXmlFuel (pySizeFields flds + 1) cls flds root

/-- Serialization of one item of a (listified) field value, named after the
containing field. -/
def serializeItem (name : String) : PyVal → Elem
  | PyVal.vobj cls2 flds2 => Serializable.to_xml cls2 flds2 name
  | item => Elem.mk name [] (some (pyStr item)) []

/-- The children contributed by one field of a record during serialization. -/
def fieldElems (flds : List (String × PyVal)) (name : String) : List Elem :=
  match getattr flds name with
  | none => []
  | some fv =>
    if fv.isNone then []
    else (listify fv).map (serializeItem name)

/-- The XSI namespace URI (`xsi_ns` in the source). -/
def xsiNs : String := "http://www.w3.org/2001/XMLSchema-instance"

/-- The default (ORI-A) namespace URI declared on the document root. -/
def oriANs : String := "https://ori-a.nl"

/-- The published schema URL embedded in `schemaLocation`. -/
def schemaUrl : String :=
  "https://github.com/Regionaal-Archief-Rivierenland/ORI-A-XSD/releases/download/v1.0.0/ORI-A.xsd"

/-- The Clark-notation attribute name `"{" + xsi_ns + "}schemaLocation"`
set on the document root (`\x7b`/`\x7d` are the literal braces). -/
def schemaLocationName : String := "\x7b" ++ xsiNs ++ "\x7d" ++ "schemaLocation"

/-- The `schemaLocation` attribute value set by `ORI_A.to_xml`. -/
def schemaLocationValue : String :=
  "https://ori-a.nl https://github.com/Regionaal-Archief-Rivierenland/ORI-A-XSD/releases/download/v1.0.0/ORI-A.xsd"

/-- Embedding of `ORI_A.to_xml`: serialize via `Serializable.to_xml`, make a
fresh root element with `nsmap={None: oriANs, "xsi": xsiNs}`, set the
`xsi:schemaLocation` attribute, and move the children over with `extend`. -/
def ORI_A.to_xml (flds : List (String × PyVal)) (root : String) : Elem :=
  let rootWithoutAttribs := Serializable.to_xml RecordCls.ORI_A flds root
  Elem.mk root
    [Attr.nsdecl none oriANs, Attr.nsdecl (some "xsi") xsiNs,
     Attr.plain schemaLocationName schemaLocationValue]
    none
    rootWithoutAttribs.children

/-- The element tree `e` carries no attribute slots (no namespace
declarations and no plain attributes), anywhere in the tree. -/
inductive AttrFreeTree : Elem → Prop where
  | node (tag : String) (text : Option String) (children : List Elem)
      (h : ∀ c ∈ children, AttrFreeTree c) :
      AttrFreeTree (Elem.mk tag [] text children)

/-- The attribute map of
`BesluitGegevens(ID="b-001", resultaat=BesluitResultaatEnum.unaniem_aangenomen)`:
the `resultaat` field holds the enum member itself, as the dataclass field
annotation `resultaat: BesluitResultaatEnum` prescribes. -/
def besluitEnumInstance : List (String × PyVal) :=
  [("ID", PyVal.vstr "b-001"),
   ("resultaat",
    PyVal.venum "BesluitResultaatEnum" "unaniem_aangenomen" "Unaniem aangenomen"),
   ("toelichting", PyVal.vnone),
   ("toezegging", PyVal.vnone)]

/-- The attribute map of
`NevenfunctieGegevens(omschrijving="lid raad van toezicht", indicatieBezoldigd=True)`:
the `indicatieBezoldigd` field holds the Python boolean `True`, as the
dataclass field annotation `indicatieBezoldigd: bool` prescribes. -/
def nevenfunctieBoolInstance : List (String × PyVal) :=
  [("omschrijving", PyVal.vstr "lid raad van toezicht"),
   ("naamOrganisatie", PyVal.vnone),
   ("aantalUrenPerMaand", PyVal.vnone),
   ("indicatieBezoldigd", PyVal.vbool true),
   ("indicatieFunctieVanwegeLidmaatschap", PyVal.vnone),
   ("datumMelding", PyVal.vnone),
   ("datumAanvang", PyVal.vnone),
   ("datumEinde", PyVal.vnone)]

section Lemmas

/-- Every value has positive size. -/
theorem one_le_pySize (v : PyVal) : 1 ≤ pySize v := by
  cases v <;> simp [pySize]

/-- Every attribute map has positive size. -/
theorem one_le_pySizeFields (flds : List (String × PyVal)) :
    1 ≤ pySizeFields flds := by
  cases flds with
  | nil => simp [pySizeFields]
  | cons p fs =>
    obtain ⟨n, v⟩ := p
    simp [pySizeFields]
    omega

/-- A looked-up attribute value is smaller than the whole attribute map. -/
theorem getattr_size {flds : List (String × PyVal)} {name : String} {v : PyVal}
    (h : getattr flds name = some v) : pySize v < pySizeFields flds := by
  induction flds with
  | nil => simp [getattr] at h
  | cons p rest ih =>
    obtain ⟨n, w⟩ := p
    simp only [getattr] at h
    split at h
    · cases h
      simp [pySizeFields]
      omega
    · have := ih h
      simp [pySizeFields]
      omega

/-- An element of a value list is smaller than the list. -/
theorem mem_pySizeList {xs : List PyVal} {v : PyVal} (h : v ∈ xs) :
    pySize v < pySizeList xs := by
  induction xs with
  | nil => simp at h
  | cons x rest ih =>
    rcases List.mem_cons.mp h with rfl | hmem
    · simp [pySizeList]; omega
    · have := ih hmem
      simp [pySizeList]
      omega

/-- Listifying never grows an item beyond the original value. -/
theorem listify_size {fv item : PyVal} (h : item ∈ listify fv) :
    pySize item ≤ pySize fv := by
  cases fv with
  | vlist xs =>
    have := mem_pySizeList (by simpa [listify] using h)
    simp [pySize]; omega
  | vtuple xs =>
    have := mem_pySizeList (by simpa [listify] using h)
    simp [pySize]; omega
  | vset xs =>
    have := mem_pySizeList (by simpa [listify] using h)
    simp [pySize]; omega
  | vnone => simp [listify] at h; subst h; exact le_refl _
  | vstr s => simp [listify] at h; subst h; exact le_refl _
  | vint n => simp [listify] at h; subst h; exact le_refl _
  | vbool b => simp [listify] at h; subst h; exact le_refl _
  | venum a b c => simp [listify] at h; subst h; exact le_refl _
  | vdate s => simp [listify] at h; subst h; exact le_refl _
  | vdatetime s => simp [listify] at h; subst h; exact le_refl _
  | vtime s => simp [listify] at h; subst h; exact le_refl _
  | vobj c g => simp [listify] at h; subst h; exact le_refl _

/-- A record nested (possibly inside a container) in an attribute value has
a strictly smaller attribute map than the enclosing instance. -/
theorem nested_fields_size {flds : List (String × PyVal)} {name : String}
    {fv item : PyVal} {cls2 : RecordCls} {flds2 : List (String × PyVal)}
    (hg : getattr flds name = some fv) (hi : item ∈ listify fv)
    (he : item = PyVal.vobj cls2 flds2) :
    pySizeFields flds2 < pySizeFields flds := by
  have h1 := getattr_size hg
  have h2 := listify_size hi
  subst he
  have h3 : pySize (PyVal.vobj cls2 flds2) = 1 + pySizeFields flds2 := by
    simp [pySize]
  omega

/-- Unfolding of `toXmlFuel` at a successor fuel. -/
theorem toXmlFuel_succ (fuel : Nat) (cls : RecordCls)
    (flds : List (String × PyVal)) (root : String) :
    toXmlFuel (fuel + 1) cls flds root
      = Elem.mk root [] none
          (catLists ((ORI_A_ordered_fields cls).map (fieldElemsFuel fuel flds))) :=
  rfl

/-- The root tag of a serialized element is the caller-supplied tag,
whatever the fuel. -/
theorem toXmlFuel_tag (fuel : Nat) (cls : RecordCls)
    (flds : List (String × PyVal)) (root : String) :
    (toXmlFuel fuel cls flds root).tag = root := by
  cases fuel <;> rfl

/-- `fieldElemsFuel` on a missing attribute. -/
theorem fieldElemsFuel_getattr_none {flds : List (String × PyVal)}
    {name : String} {fuel : Nat} (hg : getattr flds name = none) :
    fieldElemsFuel fuel flds name = [] := by
  unfold fieldElemsFuel
  rw [hg]

/-- `fieldElemsFuel` on a present attribute. -/
theorem fieldElemsFuel_getattr_some {flds : List (String × PyVal)}
    {name : String} {fuel : Nat} {fv : PyVal}
    (hg : getattr flds name = some fv) :
    fieldElemsFuel fuel flds name
      = if fv.isNone then []
        else (listify fv).map (fun item =>
          match item with
          | PyVal.vobj cls2 flds2 => toXmlFuel fuel cls2 flds2 name
          | _ => Elem.mk name [] (some (pyStr item)) []) := by
  unfold fieldElemsFuel
  rw [hg]

/-- `fieldElems` on a missing attribute. -/
theorem fieldElems_getattr_none {flds : List (String × PyVal)}
    {name : String} (hg : getattr flds name = none) :
    fieldElems flds name = [] := by
  unfold fieldElems
  rw [hg]

/-- `fieldElems` on a present attribute. -/
theorem fieldElems_getattr_some {flds : List (String × PyVal)}
    {name : String} {fv : PyVal} (hg : getattr flds name = some fv) :
    fieldElems flds name
      = if fv.isNone then []
        else (listify fv).map (serializeItem name) := by
  unfold fieldElems
  rw [hg]

/-- Serialization does not depend on the fuel once the fuel exceeds the
size of the attribute map. -/
theorem toXmlFuel_congr :
    ∀ (N : Nat) (flds : List (String × PyVal)) (cls : RecordCls) (root : String)
      (f1 f2 : Nat), pySizeFields flds ≤ N → pySizeFields flds < f1 →
      pySizeFields flds < f2 →
      toXmlFuel f1 cls flds root = toXmlFuel f2 cls flds root := by
  intro N
  induction N with
  | zero =>
    intro flds cls root f1 f2 hN _ _
    have := one_le_pySizeFields flds
    omega
  | succ N ih =>
    intro flds cls root f1 f2 hN h1 h2
    cases f1 with
    | zero => omega
    | succ g1 =>
      cases f2 with
      | zero => omega
      | succ g2 =>
        rw [toXmlFuel_succ, toXmlFuel_succ]
        have key : ∀ name, fieldElemsFuel g1 flds name = fieldElemsFuel g2 flds name := by
          intro name
          cases hg : getattr flds name with
          | none => rw [fieldElemsFuel_getattr_none hg, fieldElemsFuel_getattr_none hg]
          | some fv =>
            rw [fieldElemsFuel_getattr_some hg, fieldElemsFuel_getattr_some hg]
            cases hn : fv.isNone with
            | true => rfl
            | false =>
              rw [if_neg (by simp), if_neg (by simp)]
              apply List.map_congr_left
              intro item hitem
              cases item with
              | vobj cls2 flds2 =>
                have hlt : pySizeFields flds2 < pySizeFields flds :=
                  nested_fields_size hg hitem rfl
                exact ih flds2 cls2 name g1 g2 (by omega) (by omega) (by omega)
              | vnone => rfl
              | vstr s => rfl
              | vint n => rfl
              | vbool b => rfl
              | venum a b c => rfl
              | vdate s => rfl
              | vdatetime s => rfl
              | vtime s => rfl
              | vlist xs => rfl
              | vtuple xs => rfl
              | vset xs => rfl
        rw [List.map_congr_left (fun name _ => key name)]

/-- The inner loop at sufficient fuel agrees with the fuel-free
`fieldElems`. -/
theorem fieldElemsFuel_eq {fuel : Nat} {flds : List (String × PyVal)}
    (name : String) (hfuel : pySizeFields flds ≤ fuel) :
    fieldElemsFuel fuel flds name = fieldElems flds name := by
  cases hg : getattr flds name with
  | none => rw [fieldElemsFuel_getattr_none hg, fieldElems_getattr_none hg]
  | some fv =>
    rw [fieldElemsFuel_getattr_some hg, fieldElems_getattr_some hg]
    cases hn : fv.isNone with
    | true => rfl
    | false =>
      rw [if_neg (by simp), if_neg (by simp)]
      apply List.map_congr_left
      intro item hitem
      cases item with
      | vobj cls2 flds2 =>
        have hlt : pySizeFields flds2 < pySizeFields flds :=
          nested_fields_size hg hitem rfl
        show toXmlFuel fuel cls2 flds2 name
          = toXmlFuel (pySizeFields flds2 + 1) cls2 flds2 name
        exact toXmlFuel_congr (pySizeFields flds2) flds2 cls2 name fuel
          (pySizeFields flds2 + 1) le_rfl (by omega) (by omega)
      | vnone => rfl
      | vstr s => rfl
      | vint n => rfl
      | vbool b => rfl
      | venum a b c => rfl
      | vdate s => rfl
      | vdatetime s => rfl
      | vtime s => rfl
      | vlist xs => rfl
      | vtuple xs => rfl
      | vset xs => rfl

/-- Fuel-free recursive equation for `Serializable.to_xml`: the element is
the caller-named root with no attributes and no text, whose children are the
per-field contributions in `_ORI_A_ordered_fields` order. -/
theorem Serializable.to_xml_unfold (cls : RecordCls)
    (flds : List (String × PyVal)) (root : String) :
    Serializable.to_xml cls flds root
      = Elem.mk root [] none
          (catLists ((ORI_A_ordered_fields cls).map (fieldElems flds))) := by
  show toXmlFuel (pySizeFields flds + 1) cls flds root = _
  rw [toXmlFuel_succ]
  rw [List.map_congr_left (fun name _ => fieldElemsFuel_eq name (le_refl _))]

/-- The tag of `Serializable.to_xml` is the caller-supplied root tag. -/
theorem Serializable.to_xml_tag (cls : RecordCls)
    (flds : List (String × PyVal)) (root : String) :
    (Serializable.to_xml cls flds root).tag = root :=
  toXmlFuel_tag _ _ _ _

/-- Membership in a concatenation of lists. -/
theorem mem_catLists {α : Type} {x : α} {ls : List (List α)} :
    x ∈ catLists ls ↔ ∃ l ∈ ls, x ∈ l := by
  induction ls with
  | nil => simp [catLists]
  | cons l rest ih => simp [catLists, ih]

/-- `countP` distributes over a concatenation of lists. -/
theorem countP_catLists {α : Type} (p : α → Bool) (ls : List (List α)) :
    (catLists ls).countP p = (ls.map (List.countP p)).sum := by
  induction ls with
  | nil => simp [catLists]
  | cons l rest ih => simp [catLists, List.countP_append, ih]

/-- `filter` distributes over a concatenation of lists. -/
theorem filter_catLists {α : Type} (p : α → Bool) (ls : List (List α)) :
    (catLists ls).filter p = catLists (ls.map (List.filter p)) := by
  induction ls with
  | nil => simp [catLists]
  | cons l rest ih => simp [catLists, List.filter_append, ih]

/-- A concatenation of empty lists is empty. -/
theorem catLists_eq_nil {α : Type} {ls : List (List α)}
    (h : ∀ l ∈ ls, l = []) : catLists ls = [] := by
  induction ls with
  | nil => rfl
  | cons l rest ih =>
    simp [catLists, h l (by simp), ih (fun m hm => h m (by simp [hm]))]

/-- If a name occurs exactly once in `names` and `F` vanishes on all other
names, the concatenation over `names` collapses to `F f`. -/
theorem catLists_pick {α : Type} {names : List String} {f : String}
    (F : String → List α) (hcount : names.count f = 1)
    (hother : ∀ n, n ≠ f → F n = []) :
    catLists (names.map F) = F f := by
  induction names with
  | nil => simp at hcount
  | cons n rest ih =>
    by_cases hn : n = f
    · subst hn
      have hz : rest.count n = 0 := by
        have := List.count_cons_self n rest
        omega
      have hnotin : n ∉ rest := by
        rwa [List.count_eq_zero] at hz
      have hrest : catLists (rest.map F) = [] := by
        apply catLists_eq_nil
        intro l hl
        obtain ⟨m, hm, rfl⟩ := List.mem_map.mp hl
        exact hother m (fun hmf => hnotin (hmf ▸ hm))
      simp [catLists, hrest]
    · have hcount' : rest.count f = 1 := by
        have := List.count_cons f n rest
        simp [hn] at this
        omega
      simp [catLists, hother n hn, ih hcount']

/-- Every element contributed by a field carries the field's name as tag. -/
theorem fieldElems_tag {flds : List (String × PyVal)} {name : String}
    {e : Elem} (h : e ∈ fieldElems flds name) : e.tag = name := by
  unfold fieldElems at h
  split at h
  · simp at h
  · split at h
    · simp at h
    · obtain ⟨item, _, rfl⟩ := List.mem_map.mp h
      cases item with
      | vobj cls2 flds2 => exact Serializable.to_xml_tag _ _ _
      | vnone => rfl
      | vstr s => rfl
      | vint n => rfl
      | vbool b => rfl
      | venum a b c => rfl
      | vdate s => rfl
      | vdatetime s => rfl
      | vtime s => rfl
      | vlist xs => rfl
      | vtuple xs => rfl
      | vset xs => rfl

/-- `fieldElems` depends on the instance only through `getattr` at the
field's own name. -/
theorem fieldElems_congr {flds1 flds2 : List (String × PyVal)} {name : String}
    (h : getattr flds1 name = getattr flds2 name) :
    fieldElems flds1 name = fieldElems flds2 name := by
  unfold fieldElems
  rw [h]

/-- The children of a serialized record that carry a given field's name are
exactly that field's contribution, provided the name occurs exactly once in
the serialization order. -/
theorem filter_children_eq (cls : RecordCls) (flds : List (String × PyVal))
    (root : String) (f : String)
    (hcount : (ORI_A_ordered_fields cls).count f = 1) :
    (Serializable.to_xml cls flds root).children.filter (fun e => e.tag == f)
      = fieldElems flds f := by
  rw [Serializable.to_xml_unfold]
  show (catLists ((ORI_A_ordered_fields cls).map (fieldElems flds))).filter _ = _
  rw [filter_catLists, List.map_map]
  have step : catLists ((ORI_A_ordered_fields cls).map
      (fun n => (fieldElems flds n).filter (fun e => e.tag == f)))
      = (fieldElems flds f).filter (fun e => e.tag == f) := by
    apply catLists_pick _ hcount
    intro n hn
    apply List.filter_eq_nil_iff.mpr
    intro e he
    have := fieldElems_tag he
    simp [this, hn]
  calc catLists ((ORI_A_ordered_fields cls).map
        ((fun l => l.filter (fun e => e.tag == f)) ∘ fieldElems flds))
      = (fieldElems flds f).filter (fun e => e.tag == f) := step
    _ = fieldElems flds f := by
        apply List.filter_eq_self.mpr
        intro e he
        simp [fieldElems_tag he]

/-- No child of a serialized record carries a name whose field contributes
nothing. -/
theorem countP_children_eq_zero (cls : RecordCls)
    (flds : List (String × PyVal)) (root : String) (f : String)
    (hempty : fieldElems flds f = []) :
    (Serializable.to_xml cls flds root).children.countP (fun e => e.tag == f)
      = 0 := by
  rw [Serializable.to_xml_unfold]
  show (catLists ((ORI_A_ordered_fields cls).map (fieldElems flds))).countP _ = 0
  rw [countP_catLists]
  apply List.sum_eq_zero
  intro x hx
  rw [List.map_map] at hx
  obtain ⟨n, _, rfl⟩ := List.mem_map.mp hx
  by_cases hn : n = f
  · subst hn
    simp [hempty]
  · show (fieldElems flds n).countP _ = 0
    rw [List.countP_eq_zero]
    intro e he
    have := fieldElems_tag he
    simp [this, hn]

/-- Inversion for `AttrFreeTree`: the children of an attribute-free tree are
attribute-free. -/
theorem AttrFreeTree.children_mem {e : Elem} (h : AttrFreeTree e) :
    ∀ c ∈ e.children, AttrFreeTree c := by
  cases h with
  | node t tx ch hh => exact hh

/-- Every tree produced by the generic serialization engine is free of
attribute slots, at every fuel. -/
theorem attrFree_toXmlFuel :
    ∀ (fuel : Nat) (cls : RecordCls) (flds : List (String × PyVal))
      (root : String), AttrFreeTree (toXmlFuel fuel cls flds root) := by
  intro fuel
  induction fuel with
  | zero =>
    intro cls flds root
    exact AttrFreeTree.node _ _ _ (by intro c hc; simp at hc)
  | succ fuel ih =>
    intro cls flds root
    rw [toXmlFuel_succ]
    refine AttrFreeTree.node _ _ _ ?_
    intro c hc
    rw [mem_catLists] at hc
    obtain ⟨l, hl, hcl⟩ := hc
    obtain ⟨name, hname, rfl⟩ := List.mem_map.mp hl
    cases hg : getattr flds name with
    | none =>
      rw [fieldElemsFuel_getattr_none hg] at hcl
      simp at hcl
    | some fv =>
      rw [fieldElemsFuel_getattr_some hg] at hcl
      by_cases hn : fv.isNone = true
      · rw [if_pos hn] at hcl
        simp at hcl
      · rw [if_neg hn] at hcl
        obtain ⟨item, hitem, rfl⟩ := List.mem_map.mp hcl
        cases item with
        | vobj cls2 flds2 => exact ih cls2 flds2 name
        | vnone => exact AttrFreeTree.node _ _ _ (by intro c hc; simp at hc)
        | vstr s => exact AttrFreeTree.node _ _ _ (by intro c hc; simp at hc)
        | vint n => exact AttrFreeTree.node _ _ _ (by intro c hc; simp at hc)
        | vbool b => exact AttrFreeTree.node _ _ _ (by intro c hc; simp at hc)
        | venum a b c0 => exact AttrFreeTree.node _ _ _ (by intro c hc; simp at hc)
        | vdate s => exact AttrFreeTree.node _ _ _ (by intro c hc; simp at hc)
        | vdatetime s => exact AttrFreeTree.node _ _ _ (by intro c hc; simp at hc)
        | vtime s => exact AttrFreeTree.node _ _ _ (by intro c hc; simp at hc)
        | vlist xs => exact AttrFreeTree.node _ _ _ (by intro c hc; simp at hc)
        | vtuple xs => exact AttrFreeTree.node _ _ _ (by intro c hc; simp at hc)
        | vset xs => exact AttrFreeTree.node _ _ _ (by intro c hc; simp at hc)

end Lemmas

section Claims

/-- C1: for every record type, `_ORI_A_ordered_fields` returns a permutation
of exactly that type's declared dataclass fields; every type other than the
two documented overrides returns them in declaration order; `BegripGegevens`
returns (field 1, field 3, field 2) of its three declared fields, and
`DagelijksBestuurLidmaatschapGegevens` returns its first declared field moved
to the end with all other fields shifted one position earlier. -/
theorem ordered_fields_permutation :
    (∀ cls : RecordCls, (ORI_A_ordered_fields cls).Perm (declaredFields cls))
    ∧ (∀ cls : RecordCls, cls ≠ RecordCls.BegripGegevens →
        cls ≠ RecordCls.DagelijksBestuurLidmaatschapGegevens →
        ORI_A_ordered_fields cls = declaredFields cls)
    ∧ ORI_A_ordered_fields RecordCls.BegripGegevens
        = ["begripLabel", "begripCode", "verwijzingBegrippenlijst"]
    ∧ ORI_A_ordered_fields RecordCls.DagelijksBestuurLidmaatschapGegevens
        = ["ID", "datumBeginDagelijksBestuurLidmaatschap",
           "datumEindeDagelijksBestuurLidmaatschap", "verwijzingDagelijksBestuur"] := by
  refine ⟨?_, ?_, rfl, rfl⟩
  · intro cls
    cases cls <;> first | exact List.Perm.refl _ | decide
  · intro cls h1 h2
    cases cls <;> first | rfl | exact absurd rfl h1 | exact absurd rfl h2

/-- C1 witness: the second conjunct of `ordered_fields_permutation` applied
to a concrete non-overriding record type. -/
theorem ordered_fields_permutation_witness :
    ORI_A_ordered_fields RecordCls.GremiumGegevens
      = declaredFields RecordCls.GremiumGegevens :=
  ordered_fields_permutation.2.1 RecordCls.GremiumGegevens (by decide) (by decide)

/-- C2: code bug.  A `BesluitGegevens` whose `resultaat` field holds the
enum member `BesluitResultaatEnum.unaniem_aangenomen` (as its type
annotation prescribes) serializes to the text
`"BesluitResultaatEnum.unaniem_aangenomen"` — Python's `str()` of a plain
`Enum` member is its symbolic dotted name — and not to the member's display
string `"Unaniem aangenomen"` as the claim states. -/
theorem enum_serialization_divergence :
    (Serializable.to_xml RecordCls.BesluitGegevens besluitEnumInstance
        "besluit").children.filter (fun e => e.tag == "resultaat")
      = [Elem.mk "resultaat" []
          (some "BesluitResultaatEnum.unaniem_aangenomen") []]
    ∧ pyStr (PyVal.venum "BesluitResultaatEnum" "unaniem_aangenomen"
        "Unaniem aangenomen") ≠ "Unaniem aangenomen" :=
  ⟨rfl, by decide⟩

/-- C3: code bug.  A `NevenfunctieGegevens` whose `indicatieBezoldigd`
field holds the Python boolean `True` (as its type annotation prescribes)
serializes to the text `"True"` — Python's `str()` of a boolean — and not
to the lowercase literal `"true"` the claim states. -/
theorem bool_serialization_divergence :
    (Serializable.to_xml RecordCls.NevenfunctieGegevens nevenfunctieBoolInstance
        "nevenfunctie").children.filter (fun e => e.tag == "indicatieBezoldigd")
      = [Elem.mk "indicatieBezoldigd" [] (some "True") []]
    ∧ pyStr (PyVal.vbool true) ≠ "true"
    ∧ pyStr (PyVal.vbool false) ≠ "false" :=
  ⟨rfl, by decide, by decide⟩

/-- C4: in every document assembled by `ORI_A.to_xml`, the root carries
exactly the two namespace declarations (default ORI-A namespace, then the
named XSI namespace) followed by the single `schemaLocation` attribute
whose value is the namespace URI and the schema URL space-separated, and no
descendant element carries any attribute slot or namespace declaration. -/
theorem root_metadata_unique (flds : List (String × PyVal)) (root : String) :
    (ORI_A.to_xml flds root).attrs
      = [Attr.nsdecl none oriANs, Attr.nsdecl (some "xsi") xsiNs,
         Attr.plain schemaLocationName schemaLocationValue]
    ∧ schemaLocationValue = oriANs ++ " " ++ schemaUrl
    ∧ (∀ c ∈ (ORI_A.to_xml flds root).children, AttrFreeTree c) := by
  refine ⟨rfl, by decide, ?_⟩
  intro c hc
  exact (attrFree_toXmlFuel (pySizeFields flds + 1) RecordCls.ORI_A flds
    root).children_mem c hc

/-- C4 witness: `root_metadata_unique` applied to a concrete document
instance and one of its children. -/
theorem root_metadata_unique_witness :
    AttrFreeTree (Elem.mk "vergadering" [] (some "x") []) := by
  have h : (ORI_A.to_xml [("vergadering", PyVal.vstr "x")] "ORI-A").children
      = [Elem.mk "vergadering" [] (some "x") []] := rfl
  exact (root_metadata_unique [("vergadering", PyVal.vstr "x")] "ORI-A").2.2 _
    (by rw [h]; exact List.mem_singleton_self _)

/-- C5: a field holding the absent marker `None` contributes no child
elements at all — `to_xml` emits zero children carrying that field's name
(whatever the schema's occurrence constraint) and processes the remaining
fields as usual. -/
theorem absent_field_omitted (cls : RecordCls) (flds : List (String × PyVal))
    (root : String) (f : String) (h : getattr flds f = some PyVal.vnone) :
    fieldElems flds f = []
    ∧ (Serializable.to_xml cls flds root).children.countP
        (fun e => e.tag == f) = 0 := by
  have hempty : fieldElems flds f = [] := by
    rw [fieldElems_getattr_some h]
    rfl
  exact ⟨hempty, countP_children_eq_zero cls flds root f hempty⟩

/-- C5 witness: `absent_field_omitted` on a `GremiumGegevens` whose
optional `identificatie` field is `None`. -/
theorem absent_field_omitted_witness :
    fieldElems [("naam", PyVal.vstr "cie"), ("identificatie", PyVal.vnone)]
      "identificatie" = []
    ∧ (Serializable.to_xml RecordCls.GremiumGegevens
        [("naam", PyVal.vstr "cie"), ("identificatie", PyVal.vnone)]
        "gremium").children.countP (fun e => e.tag == "identificatie") = 0 :=
  absent_field_omitted RecordCls.GremiumGegevens _ "gremium" "identificatie" rfl

/-- C6: a field holding a sequence of N values produces exactly the N child
elements named after the field, in source order (first conjunct: the
children carrying the field's name are precisely the item serializations in
order); and a field holding one non-sequence, non-absent value `v`
serializes identically to the same field holding the one-element list
`[v]` (second conjunct). -/
theorem repetition_fidelity :
    (∀ (cls : RecordCls) (flds : List (String × PyVal)) (root f : String)
       (xs : List PyVal), getattr flds f = some (PyVal.vlist xs) →
       (ORI_A_ordered_fields cls).count f = 1 →
       (Serializable.to_xml cls flds root).children.filter (fun e => e.tag == f)
         = xs.map (serializeItem f))
    ∧ (∀ (cls : RecordCls) (flds1 flds2 : List (String × PyVal)) (root f : String)
       (v : PyVal), (∀ n, n ≠ f → getattr flds1 n = getattr flds2 n) →
       getattr flds1 f = some v → getattr flds2 f = some (PyVal.vlist [v]) →
       listify v = [v] → v ≠ PyVal.vnone →
       Serializable.to_xml cls flds1 root = Serializable.to_xml cls flds2 root) := by
  constructor
  · intro cls flds root f xs hg hcount
    rw [filter_children_eq cls flds root f hcount, fieldElems_getattr_some hg]
    rfl
  · intro cls flds1 flds2 root f v hpt h1 h2 hl hv
    rw [Serializable.to_xml_unfold, Serializable.to_xml_unfold]
    have hvn : v.isNone = false := by
      cases v
      case vnone => exact absurd rfl hv
      all_goals rfl
    have hmap : (ORI_A_ordered_fields cls).map (fieldElems flds1)
        = (ORI_A_ordered_fields cls).map (fieldElems flds2) := by
      apply List.map_congr_left
      intro n _
      by_cases hn : n = f
      · subst hn
        rw [fieldElems_getattr_some h1, fieldElems_getattr_some h2]
        rw [if_neg (by simp [hvn]), if_neg (by simp [PyVal.isNone])]
        rw [hl]
        rfl
      · exact fieldElems_congr (hpt n hn)
    rw [hmap]

/-- C6 witness: the first conjunct of `repetition_fidelity` on a
`BesluitGegevens` whose repeatable `ID` field holds two values. -/
theorem repetition_fidelity_witness :
    (Serializable.to_xml RecordCls.BesluitGegevens
      [("ID", PyVal.vlist [PyVal.vstr "a", PyVal.vstr "b"]),
       ("resultaat", PyVal.vstr "Aangenomen"),
       ("toelichting", PyVal.vnone), ("toezegging", PyVal.vnone)]
      "besluit").children.filter (fun e => e.tag == "ID")
      = [PyVal.vstr "a", PyVal.vstr "b"].map (serializeItem "ID") :=
  repetition_fidelity.1 RecordCls.BesluitGegevens _ "besluit" "ID" _ rfl (by decide)

/-- C7: the subtree emitted for a nested-record field is rooted at an
element named after the containing field, never after the nested record's
own class name; the same record serialized under two differently named
fields yields two differently tagged subtrees. -/
theorem nested_tag_naming :
    (∀ (cls2 : RecordCls) (flds2 : List (String × PyVal)) (name : String),
       (Serializable.to_xml cls2 flds2 name).tag = name)
    ∧ (∀ (flds : List (String × PyVal)) (f : String) (cls2 : RecordCls)
         (flds2 : List (String × PyVal)),
         getattr flds f = some (PyVal.vobj cls2 flds2) →
         fieldElems flds f = [Serializable.to_xml cls2 flds2 f])
    ∧ (∀ (cls2 : RecordCls) (flds2 : List (String × PyVal)) (name : String),
         name ≠ className cls2 →
         (Serializable.to_xml cls2 flds2 name).tag ≠ className cls2)
    ∧ (∀ (cls2 : RecordCls) (flds2 flds3 : List (String × PyVal)) (n1 n2 : String),
         n1 ≠ n2 →
         (Serializable.to_xml cls2 flds2 n1).tag
           ≠ (Serializable.to_xml cls2 flds3 n2).tag) := by
  refine ⟨?_, ?_, ?_, ?_⟩
  · intro cls2 flds2 name
    exact Serializable.to_xml_tag _ _ _
  · intro flds f cls2 flds2 hg
    rw [fieldElems_getattr_some hg]
    rfl
  · intro cls2 flds2 name hne
    rw [Serializable.to_xml_tag]
    exact hne
  · intro cls2 flds2 flds3 n1 n2 hne
    rw [Serializable.to_xml_tag, Serializable.to_xml_tag]
    exact hne

/-- C7 witness: the second conjunct of `nested_tag_naming` on an
`InformatieobjectGegevens` whose `verwijzingInformatieobject` field nests a
`VerwijzingGegevens` record. -/
theorem nested_tag_naming_witness :
    fieldElems
      [("verwijzingInformatieobject",
        PyVal.vobj RecordCls.VerwijzingGegevens
          [("verwijzingID", PyVal.vstr "doc-1"), ("verwijzingNaam", PyVal.vnone)]),
       ("informatieobjectType", PyVal.vnone)]
      "verwijzingInformatieobject"
      = [Serializable.to_xml RecordCls.VerwijzingGegevens
          [("verwijzingID", PyVal.vstr "doc-1"), ("verwijzingNaam", PyVal.vnone)]
          "verwijzingInformatieobject"] :=
  nested_tag_naming.2.1 _ "verwijzingInformatieobject" _ _ rfl

/-- C8: the attributed element returned by `ORI_A.to_xml` has the same tag
as, exactly the children (same elements, same order) of, and the same text
as the unattributed tree produced by `Serializable.to_xml` on the same
instance: the re-rooting step changes only the attribute slots. -/
theorem doc_assembly_preserves_children (flds : List (String × PyVal))
    (root : String) :
    (ORI_A.to_xml flds root).tag = (Serializable.to_xml RecordCls.ORI_A flds root).tag
    ∧ (ORI_A.to_xml flds root).children
      = (Serializable.to_xml RecordCls.ORI_A flds root).children
    ∧ (ORI_A.to_xml flds root).text
      = (Serializable.to_xml RecordCls.ORI_A flds root).text := by
  refine ⟨?_, rfl, ?_⟩
  · rw [Serializable.to_xml_tag]
    rfl
  · rw [Serializable.to_xml_unfold]
    rfl

/-- C9: a field holding an empty list or empty tuple — which is not the
absent marker — produces zero child elements for that field's name, and the
whole output is identical to that for the same instance with the field set
to `None`: an empty sequence is indistinguishable from an absent field. -/
theorem empty_sequence_omitted (cls : RecordCls) (flds : List (String × PyVal))
    (root : String) (f : String)
    (h : getattr flds f = some (PyVal.vlist [])
       ∨ getattr flds f = some (PyVal.vtuple [])) :
    (Serializable.to_xml cls flds root).children.countP (fun e => e.tag == f) = 0
    ∧ (∀ flds2 : List (String × PyVal),
        (∀ n, n ≠ f → getattr flds n = getattr flds2 n) →
        getattr flds2 f = some PyVal.vnone →
        Serializable.to_xml cls flds root = Serializable.to_xml cls flds2 root) := by
  have hempty : fieldElems flds f = [] := by
    rcases h with h | h
    · rw [fieldElems_getattr_some h]
      rfl
    · rw [fieldElems_getattr_some h]
      rfl
  constructor
  · exact countP_children_eq_zero cls flds root f hempty
  · intro flds2 hpt h2
    rw [Serializable.to_xml_unfold, Serializable.to_xml_unfold]
    have hmap : (ORI_A_ordered_fields cls).map (fieldElems flds)
        = (ORI_A_ordered_fields cls).map (fieldElems flds2) := by
      apply List.map_congr_left
      intro n _
      by_cases hn : n = f
      · subst hn
        rw [hempty, fieldElems_getattr_some h2]
        rfl
      · exact fieldElems_congr (hpt n hn)
    rw [hmap]

/-- C9 witness: `empty_sequence_omitted` on a `FractieGegevens` whose
repeatable `neemtDeelAanStemming` field holds the empty list. -/
theorem empty_sequence_omitted_witness :
    (Serializable.to_xml RecordCls.FractieGegevens
      [("ID", PyVal.vstr "f1"), ("naam", PyVal.vstr "D66"),
       ("overheidsorgaan", PyVal.vnone),
       ("neemtDeelAanStemming", PyVal.vlist [])]
      "fractie").children.countP
        (fun e => e.tag == "neemtDeelAanStemming") = 0 :=
  (empty_sequence_omitted RecordCls.FractieGegevens
    [("ID", PyVal.vstr "f1"), ("naam", PyVal.vstr "D66"),
     ("overheidsorgaan", PyVal.vnone),
     ("neemtDeelAanStemming", PyVal.vlist [])] "fractie"
    "neemtDeelAanStemming" (Or.inl rfl)).1

/-- C10: a field holding a single string is normalized to a one-element
sequence — never iterated character by character — so it yields exactly one
child element whose text is the entire string; only `list`, `tuple` and
`set` values are treated as multi-value sequences. -/
theorem string_single_element :
    (∀ (flds : List (String × PyVal)) (f s : String),
       getattr flds f = some (PyVal.vstr s) →
       fieldElems flds f = [Elem.mk f [] (some s) []])
    ∧ (∀ s : String, listify (PyVal.vstr s) = [PyVal.vstr s])
    ∧ (∀ v : PyVal, (∀ xs : List PyVal,
         v ≠ PyVal.vlist xs ∧ v ≠ PyVal.vtuple xs ∧ v ≠ PyVal.vset xs) →
         listify v = [v])
    ∧ (∀ (cls : RecordCls) (flds : List (String × PyVal)) (root f s : String),
       getattr flds f = some (PyVal.vstr s) →
       (ORI_A_ordered_fields cls).count f = 1 →
       (Serializable.to_xml cls flds root).children.filter (fun e => e.tag == f)
         = [Elem.mk f [] (some s) []]) := by
  have part1 : ∀ (flds : List (String × PyVal)) (f s : String),
      getattr flds f = some (PyVal.vstr s) →
      fieldElems flds f = [Elem.mk f [] (some s) []] := by
    intro flds f s hg
    rw [fieldElems_getattr_some hg]
    rfl
  refine ⟨part1, fun s => rfl, ?_, ?_⟩
  · intro v hv
    cases v
    case vlist xs => exact absurd rfl (hv xs).1
    case vtuple xs => exact absurd rfl (hv xs).2.1
    case vset xs => exact absurd rfl (hv xs).2.2
    all_goals rfl
  · intro cls flds root f s hg hcount
    rw [filter_children_eq cls flds root f hcount]
    exact part1 flds f s hg

/-- C10 witness: the first conjunct of `string_single_element` on a
`GremiumGegevens` whose `naam` field holds a multi-character string. -/
theorem string_single_element_witness :
    fieldElems [("naam", PyVal.vstr "Commissie Samenleving"),
      ("identificatie", PyVal.vnone)] "naam"
      = [Elem.mk "naam" [] (some "Commissie Samenleving") []] :=
  string_single_element.1 _ "naam" "Commissie Samenleving" rfl

end Claims

end ORIA
